import Mathlib

/-!
Verification development for the bt-mqtt scanner (Python sources under
`src/scanner/src/scanner/`).  Each Python class/method used by the
specification claims is shallowly embedded as an executable Lean
definition: ambient wall-clock time (`time.time()`) becomes an explicit
rational argument, the Python `dict` backing the deduplicator becomes an
association list with unique keys, and fallible external effects (the
MQTT client's send) become an explicit outcome parameter.
-/

namespace BtMqtt

/-! ### Deduplicator (`deduplicator.py`)

The Python `Deduplicator` keeps `self._last_seen : Dict[str, float]`.
We embed the dict as an association list `List (String × ℚ)`; Python's
dict invariant (at most one entry per key) is the `Nodup` hypothesis on
the mapped keys where a theorem needs it. -/

/-- Lookup in the `_last_seen` dict: `self._last_seen.get(device_address)`. -/
def dedupGet (l : List (String × ℚ)) (addr : String) : Option ℚ :=
  (l.find? (fun p => p.1 == addr)).map Prod.snd

/-- Assignment `self._last_seen[device_address] = now`: replace the entry
if the key is present, otherwise append a fresh entry. -/
def dedupSet (l : List (String × ℚ)) (addr : String) (v : ℚ) : List (String × ℚ) :=
  if l.any (fun p => p.1 == addr) then
    l.map (fun p => if p.1 == addr then (addr, v) else p)
  else
    l ++ [(addr, v)]

/-- Deletion `del self._last_seen[key]`: drop every entry with the key
(a dict holds at most one). -/
def dedupDel (l : List (String × ℚ)) (addr : String) : List (String × ℚ) :=
  l.filter (fun p => !(p.1 == addr))

/-- State of `Deduplicator`: the configured `interval_seconds` and the
`_last_seen` table. -/
structure Deduplicator where
  interval_seconds : ℚ
  last_seen : List (String × ℚ)
deriving DecidableEq

/-- Method `Deduplicator.should_publish(device_address)`.  `now` is the value of
`time.time()` at the call.  Returns the boolean result together with the
updated deduplicator state. -/
def should_publish (d : Deduplicator) (now : ℚ) (device_address : String) :
    Bool × Deduplicator :=
  match dedupGet d.last_seen device_address with
  | none =>
      (true, { d with last_seen := dedupSet d.last_seen device_address now })
  | some last_seen =>
      let elapsed := now - last_seen
      if elapsed ≥ d.interval_seconds then
        (true, { d with last_seen := dedupSet d.last_seen device_address now })
      else
        (false, d)

/-- Method `Deduplicator.clear_old_entries(max_age_seconds)`: collect the keys of
entries older than `max_age_seconds`, delete each collected key, and
return how many keys were collected, with the updated state. -/
def clear_old_entries (d : Deduplicator) (now max_age_seconds : ℚ) :
    Nat × Deduplicator :=
  let old_keys :=
    (d.last_seen.filter (fun p => decide (now - p.2 > max_age_seconds))).map Prod.fst
  let remaining := old_keys.foldl dedupDel d.last_seen
  (old_keys.length, { d with last_seen := remaining })

/-- Value of `Deduplicator.get_stats()["unique_devices_seen"]`. -/
def unique_devices_seen (d : Deduplicator) : Nat :=
  d.last_seen.length

/-! ### Helper lemmas about the association-list dict -/

theorem dedupGet_nil (addr : String) : dedupGet [] addr = none := rfl

theorem dedupGet_dedupSet_self (l : List (String × ℚ)) (a : String) (v : ℚ) :
    dedupGet (dedupSet l a v) a = some v := by
  unfold dedupSet
  by_cases h : l.any (fun p => p.1 == a)
  · simp only [h, if_true]
    induction l with
    | nil => simp at h
    | cons p l ih =>
        by_cases hp : p.1 == a
        · simp [dedupGet, List.find?, hp]
        · have h' : l.any (fun q => q.1 == a) := by
            simp [List.any_cons, hp] at h
            simpa using h
          have := ih h'
          simpa [dedupGet, List.find?, hp] using this
  · simp only [h, if_false]
    have hnone : l.find? (fun p => p.1 == a) = none := by
      rw [List.find?_eq_none]
      intro x hx
      by_contra hcon
      exact h (List.any_eq_true.mpr ⟨x, hx, by simpa using hcon⟩)
    simp [dedupGet, List.find?_append, hnone, List.find?]

/-- Claim C4 — `should_publish` case analysis.  A first sighting of an
address returns true and stores the current time; a repeat sighting
within `interval_seconds` of the stored (last published) time returns
false with the whole state unchanged; a repeat sighting at least
`interval_seconds` later returns true and re-stamps the address with
`now`. -/
theorem should_publish_spec (d : Deduplicator) (now : ℚ) (A : String) :
    (dedupGet d.last_seen A = none →
      should_publish d now A =
        (true, { d with last_seen := dedupSet d.last_seen A now }) ∧
      dedupGet (should_publish d now A).2.last_seen A = some now) ∧
    (∀ t, dedupGet d.last_seen A = some t → now - t < d.interval_seconds →
      should_publish d now A = (false, d)) ∧
    (∀ t, dedupGet d.last_seen A = some t → d.interval_seconds ≤ now - t →
      should_publish d now A =
        (true, { d with last_seen := dedupSet d.last_seen A now }) ∧
      dedupGet (should_publish d now A).2.last_seen A = some now) := by
  refine ⟨?_, ?_, ?_⟩
  · intro hnone
    constructor
    · simp [should_publish, hnone]
    · simp [should_publish, hnone, dedupGet_dedupSet_self]
  · intro t ht hlt
    simp [should_publish, ht, not_le.mpr hlt]
  · intro t ht hle
    constructor
    · simp [should_publish, ht, ge_iff_le, hle]
    · simp [should_publish, ht, ge_iff_le, hle, dedupGet_dedupSet_self]

/-- Witness for C4 at interval 30: a fresh address publishes at t = 0, is
suppressed at t = 10 with the table untouched, and publishes again at
t = 35 with the table re-stamped. -/
theorem should_publish_spec_witness :
    (dedupGet ([] : List (String × ℚ)) "AA:BB:CC:DD:EE:FF" = none ∧
      should_publish ⟨30, []⟩ 0 "AA:BB:CC:DD:EE:FF" =
        (true, ⟨30, [("AA:BB:CC:DD:EE:FF", 0)]⟩)) ∧
    (dedupGet [("AA:BB:CC:DD:EE:FF", (0 : ℚ))] "AA:BB:CC:DD:EE:FF" = some 0 ∧
      (10 : ℚ) - 0 < 30 ∧
      should_publish ⟨30, [("AA:BB:CC:DD:EE:FF", 0)]⟩ 10 "AA:BB:CC:DD:EE:FF" =
        (false, ⟨30, [("AA:BB:CC:DD:EE:FF", 0)]⟩)) ∧
    ((30 : ℚ) ≤ 35 - 0 ∧
      should_publish ⟨30, [("AA:BB:CC:DD:EE:FF", 0)]⟩ 35 "AA:BB:CC:DD:EE:FF" =
        (true, ⟨30, [("AA:BB:CC:DD:EE:FF", 35)]⟩)) := by
  refine ⟨⟨by decide, ?_⟩, ⟨by decide, by norm_num, ?_⟩, ⟨by norm_num, ?_⟩⟩
  · have h := ((should_publish_spec ⟨30, []⟩ 0 "AA:BB:CC:DD:EE:FF").1 (by decide)).1
    simpa [dedupSet] using h
  · have h := (should_publish_spec ⟨30, [("AA:BB:CC:DD:EE:FF", 0)]⟩ 10
      "AA:BB:CC:DD:EE:FF").2.1 0 (by decide) (by norm_num)
    exact h
  · have h := ((should_publish_spec ⟨30, [("AA:BB:CC:DD:EE:FF", 0)]⟩ 35
      "AA:BB:CC:DD:EE:FF").2.2 0 (by decide) (by norm_num)).1
    simpa [dedupSet] using h

/-- Folding `del` over a list of keys removes exactly the entries whose
key occurs in the list. -/
theorem foldl_dedupDel_eq_filter (keys : List String) (l : List (String × ℚ)) :
    keys.foldl dedupDel l = l.filter (fun p => !(keys.contains p.1)) := by
  induction keys generalizing l with
  | nil => simp
  | cons k ks ih =>
      rw [List.foldl_cons, ih]
      unfold dedupDel
      rw [List.filter_filter]
      apply List.filter_congr
      intro x _
      by_cases hk : x.1 = k
      · simp [List.contains_cons, hk]
      · simp [List.contains_cons, hk, Bool.and_comm]

/-- Under the dict invariant (unique keys), two entries with the same key
carry the same timestamp. -/
theorem keys_nodup_snd_eq {l : List (String × ℚ)}
    (hnd : (l.map Prod.fst).Nodup) {a : String} {t1 t2 : ℚ}
    (h1 : (a, t1) ∈ l) (h2 : (a, t2) ∈ l) : t1 = t2 := by
  induction l with
  | nil => cases h1
  | cons p l ih =>
      simp only [List.map_cons, List.nodup_cons] at hnd
      rcases List.mem_cons.mp h1 with h1 | h1 <;> rcases List.mem_cons.mp h2 with h2 | h2
      · rw [← h1] at h2
        exact ((Prod.ext_iff.mp h2).2).symm
      · exact absurd (List.mem_map.mpr ⟨(a, t2), h2, by rw [← h1]⟩) hnd.1
      · exact absurd (List.mem_map.mpr ⟨(a, t1), h1, by rw [← h2]⟩) hnd.1
      · exact ih hnd.2 h1 h2

/-- Claim C6 — `clear_old_entries` removes exactly the entries whose age
strictly exceeds `max_age_seconds`, returns the number removed, keeps
every surviving entry verbatim, and a removed address behaves as a first
sighting (publishes) on its next `should_publish` call.  The `Nodup`
hypothesis is the Python dict invariant on `_last_seen`. -/
theorem clear_old_entries_spec (d : Deduplicator) (now maxAge : ℚ)
    (hnd : (d.last_seen.map Prod.fst).Nodup) :
    (clear_old_entries d now maxAge).2.last_seen
      = d.last_seen.filter (fun p => !(decide (now - p.2 > maxAge))) ∧
    (clear_old_entries d now maxAge).1
      = (d.last_seen.filter (fun p => decide (now - p.2 > maxAge))).length ∧
    (clear_old_entries d now maxAge).1
        + (clear_old_entries d now maxAge).2.last_seen.length
      = d.last_seen.length ∧
    (clear_old_entries d now maxAge).2.interval_seconds = d.interval_seconds ∧
    ∀ a t, (a, t) ∈ d.last_seen → now - t > maxAge →
      dedupGet (clear_old_entries d now maxAge).2.last_seen a = none ∧
      ∀ now2, (should_publish (clear_old_entries d now maxAge).2 now2 a).1 = true := by
  have hiff : ∀ x ∈ d.last_seen,
      x.1 ∈ (d.last_seen.filter
          (fun p => decide (now - p.2 > maxAge))).map Prod.fst ↔
        decide (now - x.2 > maxAge) = true := by
    intro x hx
    constructor
    · intro hmem1
      rcases List.mem_map.mp hmem1 with ⟨q, hqf, hq1⟩
      rcases List.mem_filter.mp hqf with ⟨hql, hqP⟩
      have hxl : (x.1, x.2) ∈ d.last_seen := hx
      have hqeq : q = (x.1, q.2) := by rw [← hq1]
      have hql2 : (x.1, q.2) ∈ d.last_seen := hqeq ▸ hql
      have hq2 : q.2 = x.2 := keys_nodup_snd_eq hnd hql2 hxl
      rw [← hq2]
      exact hqP
    · intro hpx
      exact List.mem_map_of_mem Prod.fst (List.mem_filter.mpr ⟨hx, hpx⟩)
  have hc : ∀ x ∈ d.last_seen,
      ((d.last_seen.filter
          (fun p => decide (now - p.2 > maxAge))).map Prod.fst).contains x.1
        = decide (now - x.2 > maxAge) := by
    intro x hx
    cases hcontains : ((d.last_seen.filter
        (fun p => decide (now - p.2 > maxAge))).map Prod.fst).contains x.1 with
    | true => exact ((hiff x hx).mp (List.elem_iff.mp hcontains)).symm
    | false =>
        cases hpx : decide (now - x.2 > maxAge) with
        | false => rfl
        | true =>
            rw [← hcontains]
            exact List.elem_iff.mpr ((hiff x hx).mpr hpx)
  have hmain : (clear_old_entries d now maxAge).2.last_seen
      = d.last_seen.filter (fun p => !(decide (now - p.2 > maxAge))) := by
    show ((d.last_seen.filter
        (fun p : String × ℚ => decide (now - p.2 > maxAge))).map Prod.fst).foldl
          dedupDel d.last_seen = _
    rw [foldl_dedupDel_eq_filter]
    apply List.filter_congr
    intro x hx
    rw [hc x hx]
  have hcount : (clear_old_entries d now maxAge).1
      = (d.last_seen.filter (fun p => decide (now - p.2 > maxAge))).length := by
    show ((d.last_seen.filter
        (fun p : String × ℚ => decide (now - p.2 > maxAge))).map Prod.fst).length = _
    rw [List.length_map]
  refine ⟨hmain, hcount, ?_, rfl, ?_⟩
  · rw [hmain, hcount]
    exact (List.length_eq_length_filter_add
      (fun p : String × ℚ => decide (now - p.2 > maxAge))).symm
  · intro a t hmem hage
    have hget : dedupGet (clear_old_entries d now maxAge).2.last_seen a = none := by
      unfold dedupGet
      rw [Option.map_eq_none', List.find?_eq_none]
      intro x hxr
      rw [hmain] at hxr
      rcases List.mem_filter.mp hxr with ⟨hxl, hxP⟩
      intro hbeq
      have hx1 : x.1 = a := by simpa using hbeq
      have hxeq : x = (a, x.2) := by rw [← hx1]
      have hxl2 : (a, x.2) ∈ d.last_seen := hxeq ▸ hxl
      have hx2 : x.2 = t := keys_nodup_snd_eq hnd hxl2 hmem
      simp [hx2] at hxP
      linarith
    refine ⟨hget, ?_⟩
    intro now2
    simp [should_publish, hget]

/-- Witness for C6: with entries "OLD" (age 4000) and "NEW" (age 400) and
a cutoff of 3600, exactly "OLD" is removed, one removal is reported, and
"OLD" then publishes as a first sighting. -/
theorem clear_old_entries_spec_witness :
    (([("OLD", (0 : ℚ)), ("NEW", 3600)].map Prod.fst).Nodup ∧
      (4000 : ℚ) - 0 > 3600) ∧
    (clear_old_entries ⟨30, [("OLD", 0), ("NEW", 3600)]⟩ 4000 3600).2.last_seen
      = [("NEW", 3600)] ∧
    (clear_old_entries ⟨30, [("OLD", 0), ("NEW", 3600)]⟩ 4000 3600).1 = 1 ∧
    dedupGet (clear_old_entries ⟨30, [("OLD", 0), ("NEW", 3600)]⟩
        4000 3600).2.last_seen "OLD" = none ∧
    (should_publish (clear_old_entries ⟨30, [("OLD", 0), ("NEW", 3600)]⟩
        4000 3600).2 4500 "OLD").1 = true := by
  have hnd : ([("OLD", (0 : ℚ)), ("NEW", 3600)].map Prod.fst).Nodup := by decide
  have h := clear_old_entries_spec ⟨30, [("OLD", 0), ("NEW", 3600)]⟩ 4000 3600 hnd
  have hold := h.2.2.2.2 "OLD" 0 (by simp) (by norm_num)
  refine ⟨⟨hnd, by norm_num⟩, ?_, ?_, hold.1, hold.2 4500⟩
  · rw [h.1]
    norm_num
  · rw [h.2.1]
    norm_num

/-! ### Scan-retry loop (`ble_scanner.py`, `BLEScanner._scan_loop`)

The loop is driven by the outcomes of successive `self._scanner.start()`
calls.  We embed it as a recursion over a list of outcomes (`true` =
start succeeded, `false` = start raised).  `max_retries` is the source's
hard-coded 10; the backoff is `min(5 * retry_count, 30)` after the
increment, exactly as in the source.  A successful start resets the
counter to 0 and enters the Scanning phase (further behaviour then
depends on external stop requests, outside these claims).  On the 10th
consecutive failure the loop sets `_running = False` and breaks. -/

/-- Phase in which a simulated run of `_scan_loop` ends. -/
inductive ScanPhase
  | scanning
  | failed
  | pending
deriving DecidableEq

/-- Observable outcome of a `_scan_loop` run: number of `start()` attempts
performed, the backoff waits slept (in seconds, in order), the final
phase, the final `_running` flag, and the final `retry_count`. -/
structure ScanResult where
  attempts : Nat
  waits : List Nat
  phase : ScanPhase
  running : Bool
  retry_count : Nat
deriving DecidableEq

/-- One run of `_scan_loop` starting from a given `retry_count`, consuming
one start outcome per attempt. -/
def scanLoopAux : Nat → List Bool → ScanResult
  | rc, [] => ⟨0, [], ScanPhase.pending, true, rc⟩
  | _, true :: _ => ⟨1, [], ScanPhase.scanning, true, 0⟩
  | rc, false :: rest =>
      if rc + 1 ≥ 10 then
        ⟨1, [], ScanPhase.failed, false, rc + 1⟩
      else
        let r := scanLoopAux (rc + 1) rest
        ⟨1 + r.attempts, min (5 * (rc + 1)) 30 :: r.waits, r.phase, r.running,
          r.retry_count⟩

/-- The `_scan_loop` entered with `retry_count = 0`, as in `BLEScanner.start`. -/
def scan_loop (outs : List Bool) : ScanResult := scanLoopAux 0 outs

/-- Helper for C2: from any `retry_count` below the cap, an all-failure
outcome stream long enough to reach the cap produces exactly `10 - rc`
further attempts and ends in the terminal Failed phase with
`_running = false`. -/
theorem scanLoopAux_all_failures (outs : List Bool) :
    ∀ rc, (∀ o ∈ outs, o = false) → rc < 10 → 10 ≤ rc + outs.length →
      (scanLoopAux rc outs).attempts = 10 - rc ∧
      (scanLoopAux rc outs).phase = ScanPhase.failed ∧
      (scanLoopAux rc outs).running = false := by
  induction outs with
  | nil =>
      intro rc _ hlt hge
      simp at hge
      omega
  | cons o rest ih =>
      intro rc hall hlt hge
      have ho : o = false := hall o (List.mem_cons_self o rest)
      subst ho
      by_cases hcap : rc + 1 ≥ 10
      · have hrc : rc = 9 := by omega
        subst hrc
        simp [scanLoopAux]
      · have hrest : ∀ o ∈ rest, o = false := fun o ho => hall o (List.mem_cons_of_mem _ ho)
        have hlen : 10 ≤ (rc + 1) + rest.length := by
          simp [List.length_cons] at hge
          omega
        have h := ih (rc + 1) hrest (by omega) hlen
        simp only [scanLoopAux, if_neg hcap]
        refine ⟨?_, h.2.1, h.2.2⟩
        rw [h.1]
        omega

/-- Claim C2 — after 10 consecutive failed start attempts the scan loop
gives up permanently: exactly 10 attempts are made however many further
failures the environment would supply, the loop ends in the terminal
Failed phase, and `_running` is false, so no 11th or 12th start is
attempted. -/
theorem scan_loop_gives_up (outs : List Bool)
    (hall : ∀ o ∈ outs, o = false) (hlen : 10 ≤ outs.length) :
    (scan_loop outs).attempts = 10 ∧
    (scan_loop outs).phase = ScanPhase.failed ∧
    (scan_loop outs).running = false := by
  have h := scanLoopAux_all_failures outs 0 hall (by omega) (by omega)
  simpa [scan_loop] using h

/-- Witness for C2: with 12 consecutive failures available, only 10 start
attempts happen and the loop ends Failed and stopped. -/
theorem scan_loop_gives_up_witness :
    (∀ o ∈ List.replicate 12 false, o = false) ∧
    10 ≤ (List.replicate 12 false).length ∧
    ((scan_loop (List.replicate 12 false)).attempts = 10 ∧
      (scan_loop (List.replicate 12 false)).phase = ScanPhase.failed ∧
      (scan_loop (List.replicate 12 false)).running = false) :=
  ⟨by decide, by decide, scan_loop_gives_up (List.replicate 12 false) (by decide) (by decide)⟩

/-- Helper for C5: consuming `j` failures below the cap and then a
success yields one wait of `min (5 * (rc + i + 1)) 30` per failure and a
reset counter. -/
theorem scanLoopAux_backoff (j : Nat) :
    ∀ rc, rc + j < 10 →
      scanLoopAux rc (List.replicate j false ++ [true]) =
        ⟨j + 1, (List.range j).map (fun i => min (5 * (rc + i + 1)) 30),
          ScanPhase.scanning, true, 0⟩ := by
  induction j with
  | zero =>
      intro rc _
      simp [scanLoopAux]
  | succ j ih =>
      intro rc hlt
      have hcap : ¬ rc + 1 ≥ 10 := by omega
      have hrec := ih (rc + 1) (by omega)
      show scanLoopAux rc (false :: (List.replicate j false ++ [true])) = _
      simp only [scanLoopAux, if_neg hcap, hrec]
      have hatt : 1 + (j + 1) = j + 1 + 1 := by omega
      rw [hatt]
      congr 1
      rw [List.range_succ_eq_map, List.map_cons, List.map_map]
      congr 1
      congr 1
      funext i
      simp only [Function.comp]
      omega

/-- Claim C5 — on the k-th consecutive start failure (1 ≤ k < 10) the loop
waits `min (5 * k) 30` seconds before the next attempt: a run of k
failures followed by a success sleeps exactly
`min 5 30, min 10 30, …, min (5 * k) 30` and resets the counter to 0 on
the successful start. -/
theorem scan_loop_backoff (k : Nat) (h1 : 1 ≤ k) (h2 : k < 10) :
    (scan_loop (List.replicate k false ++ [true])).waits
      = (List.range k).map (fun i => min (5 * (i + 1)) 30) ∧
    (scan_loop (List.replicate k false ++ [true])).attempts = k + 1 ∧
    (scan_loop (List.replicate k false ++ [true])).retry_count = 0 ∧
    (scan_loop (List.replicate k false ++ [true])).phase = ScanPhase.scanning := by
  have h := scanLoopAux_backoff k 0 (by omega)
  rw [scan_loop, h]
  refine ⟨?_, rfl, rfl, rfl⟩
  simp

/-- Witness for C5 at k = 3: backoffs 5, 10, 15 seconds after the first,
second, and third consecutive failures, then a reset counter. -/
theorem scan_loop_backoff_witness :
    1 ≤ 3 ∧ 3 < 10 ∧
    ((scan_loop (List.replicate 3 false ++ [true])).waits = [5, 10, 15] ∧
      (scan_loop (List.replicate 3 false ++ [true])).attempts = 4 ∧
      (scan_loop (List.replicate 3 false ++ [true])).retry_count = 0 ∧
      (scan_loop (List.replicate 3 false ++ [true])).phase = ScanPhase.scanning) := by
  have h := scan_loop_backoff 3 (by decide) (by decide)
  exact ⟨by decide, by decide, by rw [h.1]; decide, h.2.1, h.2.2.1, h.2.2.2⟩

/-! ### MQTT publisher (`mqtt_publisher.py`)

The paho client is an external collaborator; the outcome of its
`publish()` call is an explicit parameter: `accepted` (return code
`MQTT_ERR_SUCCESS`), `rejected` (any other return code), or `raised`
(the call threw and the `except` branch ran). -/

/-- Outcome of the underlying `self._client.publish(...)` call. -/
inductive SendOutcome
  | accepted
  | rejected
  | raised
deriving DecidableEq

/-- Mutable state of `MQTTPublisher`: `_connected`, `_connect_time`, and
the `_messages_sent` / `_messages_failed` counters. -/
structure MQTTPublisher where
  connected : Bool
  connect_time : Option ℚ
  messages_sent : Nat
  messages_failed : Nat
deriving DecidableEq

/-- Method `MQTTPublisher.publish_advertisement`: when not connected, count a
failure and return false; otherwise the result depends on the client
send — success returns true, a rejected send or a raised exception
counts a failure and returns false.  The advertisement payload does not
influence the outcome. -/
def publish_advertisement (p : MQTTPublisher) (send : SendOutcome) :
    Bool × MQTTPublisher :=
  if p.connected = false then
    (false, { p with messages_failed := p.messages_failed + 1 })
  else
    match send with
    | SendOutcome.accepted => (true, p)
    | SendOutcome.rejected =>
        (false, { p with messages_failed := p.messages_failed + 1 })
    | SendOutcome.raised =>
        (false, { p with messages_failed := p.messages_failed + 1 })

/-- Method `MQTTPublisher.publish_status`: same connectivity gate and send
outcomes as events, but no counter is touched on any path. -/
def publish_status (p : MQTTPublisher) (send : SendOutcome) :
    Bool × MQTTPublisher :=
  if p.connected = false then
    (false, p)
  else
    match send with
    | SendOutcome.accepted => (true, p)
    | SendOutcome.rejected => (false, p)
    | SendOutcome.raised => (false, p)

/-- Callback `MQTTPublisher._on_connect` (broker accepted iff `rc = 0`; `now` is
`time.time()` at the callback). -/
def on_connect_cb (p : MQTTPublisher) (rc : Nat) (now : ℚ) : MQTTPublisher :=
  if rc = 0 then
    { p with connected := true, connect_time := some now }
  else
    { p with connected := false }

/-- Callback `MQTTPublisher._on_disconnect`: whatever the reason code, the
connected flag drops. -/
def on_disconnect_cb (p : MQTTPublisher) : MQTTPublisher :=
  { p with connected := false }

/-- Callback `MQTTPublisher._on_publish`: delivery confirmation increments the
sent counter. -/
def on_publish_cb (p : MQTTPublisher) : MQTTPublisher :=
  { p with messages_sent := p.messages_sent + 1 }

/-- Method `MQTTPublisher.disconnect`: stops the loop and clears the connected
flag; counters untouched.  (`disconnect` itself is a name used by the
client library, hence the prefix here.) -/
def publisher_disconnect (p : MQTTPublisher) : MQTTPublisher :=
  { p with connected := false }

/-- Snapshot returned by `MQTTPublisher.get_statistics` (the Python
`int()` truncation of the uptime float is left as the exact rational). -/
structure Statistics where
  connected : Bool
  uptime_seconds : ℚ
  messages_sent : Nat
  messages_failed : Nat
deriving DecidableEq

/-- Method `MQTTPublisher.get_statistics`: a pure read of the current state. -/
def get_statistics (p : MQTTPublisher) (now : ℚ) : Statistics :=
  { connected := p.connected
    uptime_seconds :=
      match p.connect_time with
      | none => 0
      | some t => now - t
    messages_sent := p.messages_sent
    messages_failed := p.messages_failed }

/-- Claim C3 — `publish_advertisement` never throws and obeys its
return/counter contract: while disconnected every call returns false and
bumps `messages_failed` by exactly one; while connected an accepted send
returns true with the state unchanged, and the delivery confirmation
callback later increments `messages_sent` by one. -/
theorem publish_advertisement_contract :
    (∀ (p : MQTTPublisher) (send : SendOutcome), p.connected = false →
      publish_advertisement p send
        = (false, { p with messages_failed := p.messages_failed + 1 })) ∧
    (∀ p : MQTTPublisher, p.connected = true →
      publish_advertisement p SendOutcome.accepted = (true, p)) ∧
    (∀ p : MQTTPublisher, (on_publish_cb p).messages_sent = p.messages_sent + 1) := by
  refine ⟨?_, ?_, ?_⟩
  · intro p send hp
    simp [publish_advertisement, hp]
  · intro p hp
    simp [publish_advertisement, hp]
  · intro p
    rfl

/-- Witness for C3: a disconnected publisher fails and counts, a
connected one succeeds, and the confirmation callback counts a sent
message. -/
theorem publish_advertisement_contract_witness :
    ((⟨false, none, 0, 0⟩ : MQTTPublisher).connected = false ∧
      publish_advertisement ⟨false, none, 0, 0⟩ SendOutcome.accepted
        = (false, ⟨false, none, 0, 1⟩)) ∧
    ((⟨true, some 7, 3, 1⟩ : MQTTPublisher).connected = true ∧
      publish_advertisement ⟨true, some 7, 3, 1⟩ SendOutcome.accepted
        = (true, ⟨true, some 7, 3, 1⟩)) ∧
    (on_publish_cb ⟨true, some 7, 3, 1⟩).messages_sent = 3 + 1 :=
  ⟨⟨rfl, publish_advertisement_contract.1 ⟨false, none, 0, 0⟩ SendOutcome.accepted rfl⟩,
   ⟨rfl, publish_advertisement_contract.2.1 ⟨true, some 7, 3, 1⟩ rfl⟩,
   publish_advertisement_contract.2.2 ⟨true, some 7, 3, 1⟩⟩

/-- Claim C9 — `publish_status` is failure-count neutral: whatever the
connectivity and whatever the send outcome (success, rejection, or an
exception), the call leaves `messages_failed` exactly as it was. -/
theorem publish_status_failed_unchanged (p : MQTTPublisher) (send : SendOutcome) :
    ((publish_status p send).2).messages_failed = p.messages_failed := by
  unfold publish_status
  by_cases hp : p.connected = false
  · simp [hp]
  · cases send <;> simp [hp]

/-! ### Event normalization (`ble_scanner.py`, `BLEScanner._handle_advertisement`)

A raw bleak detection is turned into an `Advertisement` record.  Byte
blobs are base64-encoded; vendor company ids are rendered as
`0x`-prefixed, zero-padded 4-hex-digit keys; `raw_data` is
`base64.b64encode(b"").decode()` because bleak exposes no raw frame. -/

/-- Standard base64 alphabet. -/
def base64Alphabet : List Char :=
  "ABCDEFGHIJKLMNOPQRSTUVWXYZabcdefghijklmnopqrstuvwxyz0123456789+/".toList

/-- Character for a 6-bit group. -/
def b64char (n : Nat) : Char := base64Alphabet.getD n 'A'

/-- RFC 4648 base64 of a byte list, with `=` padding, as produced by
Python's `base64.b64encode`. -/
def base64Encode : List Nat → String
  | [] => ""
  | [b1] =>
      String.mk [b64char (b1 / 4), b64char (b1 % 4 * 16)] ++ "=="
  | [b1, b2] =>
      String.mk [b64char (b1 / 4), b64char (b1 % 4 * 16 + b2 / 16),
        b64char (b2 % 16 * 4)] ++ "="
  | b1 :: b2 :: b3 :: rest =>
      String.mk [b64char (b1 / 4), b64char (b1 % 4 * 16 + b2 / 16),
        b64char (b2 % 16 * 4 + b3 / 64), b64char (b3 % 64)]
        ++ base64Encode rest

/-- Lower-case hex digit. -/
def hexDigitChar (n : Nat) : Char := "0123456789abcdef".toList.getD n '0'

/-- Hex digits of a natural number, most significant first. -/
def toHexDigits (n : Nat) : List Char :=
  if _h : n < 16 then [hexDigitChar n]
  else toHexDigits (n / 16) ++ [hexDigitChar (n % 16)]
decreasing_by exact Nat.div_lt_self (by omega) (by omega)

/-- Python `f"0x\x7bcompany_id:04x\x7d"`: `0x` plus the hex digits padded
on the left with zeros to at least four digits. -/
def company_key (company_id : Nat) : String :=
  let ds := toHexDigits company_id
  "0x" ++ String.mk (List.replicate (4 - ds.length) '0' ++ ds)

/-- Python `str.upper()` on the (ASCII) device address, character by
character. -/
def pyUpper (s : String) : String := String.mk (s.data.map Char.toUpper)

/-- Raw detection delivered by bleak: device fields plus advertisement
data (vendor blobs keyed by company id, service blobs keyed by UUID). -/
structure Detection where
  address : String
  local_name : Option String
  rssi : Int
  manufacturer_data : List (Nat × List Nat)
  service_data : List (String × List Nat)
  service_uuids : List String
deriving DecidableEq

/-- The canonical `Advertisement` record (`ble_scanner.py` dataclass). -/
structure Advertisement where
  version : String
  timestamp : String
  scanner_id : String
  device_address : String
  device_address_type : String
  device_name : Option String
  rssi : Int
  manufacturer_data : List (String × String)
  service_data : List (String × String)
  service_uuids : List String
  raw_data : String
deriving DecidableEq

/-- The Advertisement constructed by `BLEScanner._handle_advertisement`
from a detection; `timestamp` is the ISO string rendered from
`datetime.now` at the callback. -/
def build_advertisement (scanner_id timestamp : String) (d : Detection) :
    Advertisement :=
  { version := "1.0"
    timestamp := timestamp
    scanner_id := scanner_id
    device_address := pyUpper d.address
    device_address_type := "public"
    device_name := d.local_name
    rssi := d.rssi
    manufacturer_data :=
      d.manufacturer_data.map (fun c => (company_key c.1, base64Encode c.2))
    service_data := d.service_data.map (fun s => (s.1, base64Encode s.2))
    service_uuids := d.service_uuids
    raw_data := base64Encode [] }

/-- Claim C10 — for every detection, the constructed Advertisement's
`raw_data` is the base64 encoding of zero bytes, which is the empty
string: the raw-payload field is a fixed placeholder, independent of the
received data. -/
theorem build_advertisement_raw_data_empty
    (scanner_id timestamp : String) (d : Detection) :
    (build_advertisement scanner_id timestamp d).raw_data = base64Encode [] ∧
    (build_advertisement scanner_id timestamp d).raw_data = "" :=
  ⟨rfl, rfl⟩

/-! ### Orchestrator (`app.py`, `ScannerApp`)

`ScannerApp._handle_advertisement` tracks the device, applies the
blocklist gate when `config.blocklist.enabled`, and publishes.  The
configuration's deduplication section is carried in the state exactly as
in the source, where it is only ever read for status reporting: `app.py`
never constructs or consults a `Deduplicator`, so no deduplication
happens on the publish path. -/

/-- Python `set.add`: append the address unless already present. -/
def addDevice (l : List String) (a : String) : List String :=
  if l.contains a then l else l ++ [a]

/-- State of `ScannerApp` relevant to the event path: the static config
echo (blocklist and deduplication sections), `_devices_seen`,
`_messages_published`, and the owned `MQTTPublisher`. -/
structure ScannerApp where
  blocklist_enabled : Bool
  blocklist_devices : List String
  deduplication_enabled : Bool
  deduplication_interval : ℚ
  devices_seen : List String
  messages_published : Nat
  pub : MQTTPublisher
deriving DecidableEq

/-- Method `ScannerApp._handle_advertisement`: track the device, drop on a
blocklist hit (only when the blocklist is enabled), otherwise forward to
`publish_advertisement` and count a publication on success.  The second
component records whether the advertisement was forwarded to the
Publisher. -/
def handle_advertisement (a : ScannerApp) (adv : Advertisement)
    (send : SendOutcome) : ScannerApp × Bool :=
  let a1 := { a with devices_seen := addDevice a.devices_seen adv.device_address }
  if a1.blocklist_enabled && a1.blocklist_devices.contains adv.device_address then
    (a1, false)
  else
    let r := publish_advertisement a1.pub send
    ({ a1 with
        pub := r.2
        messages_published :=
          if r.1 then a1.messages_published + 1 else a1.messages_published },
      true)

/-- One detection of the capture→normalize→handle pipeline: bleak hands
the detection to `BLEScanner._handle_advertisement`, which builds the
Advertisement and invokes the registered sink,
`ScannerApp._handle_advertisement`.  The rational is the detection time
`t`; it reaches no pipeline stage because the application wires no
time-based deduplication. -/
def pipeline_step (a : ScannerApp) (det : String × ℚ) : ScannerApp :=
  (handle_advertisement a
    (build_advertisement "scanner-1" "" ⟨det.1, none, 0, [], [], []⟩)
    SendOutcome.accepted).1

/-- Run the pipeline over a list of timestamped detections. -/
def runDetections (a : ScannerApp) (dets : List (String × ℚ)) : ScannerApp :=
  dets.foldl pipeline_step a

/-- Claim C1 (divergence witness) — with deduplication enabled at
interval 30 and an empty blocklist, detections of the same address at
t = 0 and t = 10 both reach the Publisher (2 publishes, where the claim
requires exactly 1), and the t = 35 detection makes it 3 (the claim
requires 2): `ScannerApp` never consults the `Deduplicator`, which would
have returned false for the t = 10 repeat. -/
theorem pipeline_ignores_deduplication :
    (runDetections ⟨false, [], true, 30, [], 0, ⟨true, some 0, 0, 0⟩⟩
      [("AA:BB:CC:DD:EE:FF", 0), ("AA:BB:CC:DD:EE:FF", 10)]).messages_published
      = 2 ∧
    (runDetections ⟨false, [], true, 30, [], 0, ⟨true, some 0, 0, 0⟩⟩
      [("AA:BB:CC:DD:EE:FF", 0), ("AA:BB:CC:DD:EE:FF", 10),
        ("AA:BB:CC:DD:EE:FF", 35)]).messages_published = 3 ∧
    (should_publish ⟨30, [("AA:BB:CC:DD:EE:FF", 0)]⟩ 10 "AA:BB:CC:DD:EE:FF").1
      = false := by
  refine ⟨by decide, by decide, ?_⟩
  have hget : dedupGet [("AA:BB:CC:DD:EE:FF", (0 : ℚ))] "AA:BB:CC:DD:EE:FF"
      = some 0 := by decide
  simp only [should_publish, hget]
  norm_num

/-- Claim C8, counterexample — the blocklist set alone does not gate the
pipeline: with the blocklist section disabled but its device list
containing the address, the advertisement is still forwarded to the
Publisher. -/
theorem blocklist_membership_alone_does_not_block :
    ((⟨false, ["AA:BB:CC:DD:EE:FF"], false, 30, [], 0,
        ⟨true, some 0, 0, 0⟩⟩ : ScannerApp).blocklist_devices.contains
      "AA:BB:CC:DD:EE:FF" = true) ∧
    (handle_advertisement
      ⟨false, ["AA:BB:CC:DD:EE:FF"], false, 30, [], 0, ⟨true, some 0, 0, 0⟩⟩
      (build_advertisement "scanner-1" "" ⟨"AA:BB:CC:DD:EE:FF", none, 0, [], [], []⟩)
      SendOutcome.accepted).2 = true := by
  exact ⟨by decide, by decide⟩

/-- Claim C8, amended — when the blocklist is enabled and contains the
advertisement's device address, the advertisement is never forwarded to
the Publisher, regardless of deduplication configuration or publisher
state. -/
theorem blocklist_enabled_blocks (a : ScannerApp) (adv : Advertisement)
    (send : SendOutcome) (h1 : a.blocklist_enabled = true)
    (h2 : a.blocklist_devices.contains adv.device_address = true) :
    (handle_advertisement a adv send).2 = false := by
  have h2m : adv.device_address ∈ a.blocklist_devices := List.elem_iff.mp h2
  unfold handle_advertisement
  simp [h1, h2m]

/-- Witness for the amended C8: an enabled blocklist containing the
address drops the advertisement. -/
theorem blocklist_enabled_blocks_witness :
    ((⟨true, ["AA:BB:CC:DD:EE:FF"], true, 30, [], 0,
        ⟨true, some 0, 0, 0⟩⟩ : ScannerApp).blocklist_enabled = true) ∧
    ((⟨true, ["AA:BB:CC:DD:EE:FF"], true, 30, [], 0,
        ⟨true, some 0, 0, 0⟩⟩ : ScannerApp).blocklist_devices.contains
      (build_advertisement "scanner-1" ""
        ⟨"AA:BB:CC:DD:EE:FF", none, 0, [], [], []⟩).device_address = true) ∧
    (handle_advertisement
      ⟨true, ["AA:BB:CC:DD:EE:FF"], true, 30, [], 0, ⟨true, some 0, 0, 0⟩⟩
      (build_advertisement "scanner-1" "" ⟨"AA:BB:CC:DD:EE:FF", none, 0, [], [], []⟩)
      SendOutcome.accepted).2 = false :=
  ⟨by decide, by decide,
    blocklist_enabled_blocks _ _ SendOutcome.accepted (by decide) (by decide)⟩

/-! ### Counter monotonicity (C7)

Every operation of the Publisher and the Orchestrator that touches state
over the process lifetime, as an explicit step type.  `getStatistics` is
the pure read `get_statistics` above and is not a step. -/

/-- One state-changing operation of the process: a detection handled by
the Orchestrator, an MQTT connection event callback, a delivery
confirmation, an explicit disconnect, a status publish, or a bare event
publish. -/
inductive AppOp
  | handleAdv (adv : Advertisement) (send : SendOutcome)
  | mqttOnConnect (rc : Nat) (now : ℚ)
  | mqttOnDisconnect
  | mqttOnPublish
  | mqttDisconnect
  | statusPublish (send : SendOutcome)
  | eventPublish (send : SendOutcome)
deriving DecidableEq

/-- Apply one operation to the application state. -/
def applyAppOp (a : ScannerApp) (op : AppOp) : ScannerApp :=
  match op with
  | AppOp.handleAdv adv send => (handle_advertisement a adv send).1
  | AppOp.mqttOnConnect rc now => { a with pub := on_connect_cb a.pub rc now }
  | AppOp.mqttOnDisconnect => { a with pub := on_disconnect_cb a.pub }
  | AppOp.mqttOnPublish => { a with pub := on_publish_cb a.pub }
  | AppOp.mqttDisconnect => { a with pub := publisher_disconnect a.pub }
  | AppOp.statusPublish send => { a with pub := (publish_status a.pub send).2 }
  | AppOp.eventPublish send => { a with pub := (publish_advertisement a.pub send).2 }

/-- A process lifetime: a sequence of operations folded over the initial
state. -/
def runAppOps (a : ScannerApp) (ops : List AppOp) : ScannerApp :=
  ops.foldl applyAppOp a

theorem publish_advertisement_counters_mono (p : MQTTPublisher) (send : SendOutcome) :
    p.messages_sent ≤ ((publish_advertisement p send).2).messages_sent ∧
    p.messages_failed ≤ ((publish_advertisement p send).2).messages_failed := by
  unfold publish_advertisement
  by_cases hp : p.connected = false
  · simp [hp]
  · cases send <;> simp [hp]

theorem publish_status_counters_mono (p : MQTTPublisher) (send : SendOutcome) :
    p.messages_sent ≤ ((publish_status p send).2).messages_sent ∧
    p.messages_failed ≤ ((publish_status p send).2).messages_failed := by
  unfold publish_status
  by_cases hp : p.connected = false
  · simp [hp]
  · cases send <;> simp [hp]

theorem addDevice_length_mono (l : List String) (a : String) :
    l.length ≤ (addDevice l a).length := by
  unfold addDevice
  split
  · exact le_refl _
  · simp

theorem applyAppOp_mono (a : ScannerApp) (op : AppOp) :
    a.pub.messages_sent ≤ (applyAppOp a op).pub.messages_sent ∧
    a.pub.messages_failed ≤ (applyAppOp a op).pub.messages_failed ∧
    a.devices_seen.length ≤ (applyAppOp a op).devices_seen.length := by
  cases op with
  | handleAdv adv send =>
      simp only [applyAppOp, handle_advertisement]
      by_cases hb : (a.blocklist_enabled &&
          a.blocklist_devices.contains adv.device_address) = true
      · rw [if_pos hb]
        exact ⟨le_refl _, le_refl _, addDevice_length_mono _ _⟩
      · rw [if_neg hb]
        exact ⟨(publish_advertisement_counters_mono a.pub send).1,
          (publish_advertisement_counters_mono a.pub send).2,
          addDevice_length_mono _ _⟩
  | mqttOnConnect rc now =>
      unfold applyAppOp on_connect_cb
      by_cases h : rc = 0 <;> simp [h]
  | mqttOnDisconnect => exact ⟨le_refl _, le_refl _, le_refl _⟩
  | mqttOnPublish =>
      exact ⟨Nat.le_succ _, le_refl _, le_refl _⟩
  | mqttDisconnect => exact ⟨le_refl _, le_refl _, le_refl _⟩
  | statusPublish send =>
      exact ⟨(publish_status_counters_mono a.pub send).1,
        (publish_status_counters_mono a.pub send).2, le_refl _⟩
  | eventPublish send =>
      exact ⟨(publish_advertisement_counters_mono a.pub send).1,
        (publish_advertisement_counters_mono a.pub send).2, le_refl _⟩

/-- Claim C7 — `messages_sent`, `messages_failed`, and the devices-seen
count are monotonically non-decreasing across the process lifetime: no
sequence of Publisher/Orchestrator operations (connect or disconnect
events, delivery confirmations, publishes of either kind, handled
detections) ever decreases or resets them. -/
theorem counters_monotone_over_lifetime (a : ScannerApp) (ops : List AppOp) :
    a.pub.messages_sent ≤ (runAppOps a ops).pub.messages_sent ∧
    a.pub.messages_failed ≤ (runAppOps a ops).pub.messages_failed ∧
    a.devices_seen.length ≤ (runAppOps a ops).devices_seen.length := by
  induction ops generalizing a with
  | nil => exact ⟨le_refl _, le_refl _, le_refl _⟩
  | cons op ops ih =>
      have hstep := applyAppOp_mono a op
      have hrest := ih (applyAppOp a op)
      exact ⟨le_trans hstep.1 hrest.1, le_trans hstep.2.1 hrest.2.1,
        le_trans hstep.2.2 hrest.2.2⟩
